import Mathlib

/-!
Shallow embedding of the route-optimization and midpoint-solver core of the
trip-meetup planner.

Part 1 models the route sequencer of src/pages/TripPlanPage.tsx
(buildNearestNeighborRoute, optimizeRoute2Opt).  Both source functions measure
with getDistance = calculateDistance (the haversine great-circle distance);
here they are parametrized by an arbitrary rational-valued distance function
d so that the statements are executable, and symmetry of d is assumed exactly
where the source's haversine distance provides it (see Part 3).

Part 2 models src/utils/mapCalc.ts (calculateMidPoint,
calculateWeightedMidPoint) together with the batch travel-time oracle
getBatchRouteTimes of src/utils/amap.ts.  The external AMap SDK calls
(GeometryUtil.distance, per-point route planning) are abstracted as function
parameters; the solver additionally returns the trace of oracle queries it
issued, modelling the sequence of awaited getBatchRouteTimes calls.

Part 3 models calculateDistance of src/utils/mapCalc.ts over the reals.
-/

namespace TripRoute

variable {P : Type}

/-- Length of the open path visiting the list in order: sum of the distances
between consecutive elements. -/
def pathLen (d : P → P → ℚ) : List P → ℚ
  | [] => 0
  | [_] => 0
  | x :: y :: rest => d x y + pathLen d (y :: rest)

/-- Total tour length from the start point through the route in order:
distance from start to the first stop plus consecutive-stop distances. -/
def tourLen (d : P → P → ℚ) (start : P) (route : List P) : ℚ :=
  pathLen d (start :: route)

/-- Distance contributed by the junction of two optional endpoints. -/
def linkQ (d : P → P → ℚ) : Option P → Option P → ℚ
  | some x, some y => d x y
  | _, _ => 0

/-- The point preceding position i of the route: the external start when
i = 0, else route[i-1].  Mirrors `const a = i === 0 ? start : route[i - 1]`. -/
def edgeA (start : P) (route : List P) (i : ℕ) : P :=
  if i = 0 then start else route.getD (i - 1) start

/-- The point following position k, if any.  Mirrors
`const d = k + 1 < route.length ? route[k + 1] : null`. -/
def afterK (start : P) (route : List P) (k : ℕ) : Option P :=
  if k + 1 < route.length then some (route.getD (k + 1) start) else none

/-- `currentDist = getDistance(a, b) + (d ? getDistance(c, d) : 0)`. -/
def currentDist (d : P → P → ℚ) (start : P) (route : List P) (i k : ℕ) : ℚ :=
  d (edgeA start route i) (route.getD i start) +
    (match afterK start route k with
      | some x => d (route.getD k start) x
      | none => 0)

/-- `swappedDist = getDistance(a, c) + (d ? getDistance(b, d) : 0)`. -/
def swappedDist (d : P → P → ℚ) (start : P) (route : List P) (i k : ℕ) : ℚ :=
  d (edgeA start route i) (route.getD k start) +
    (match afterK start route k with
      | some x => d (route.getD i start) x
      | none => 0)

/-- The swap test `swappedDist + 0.01 < currentDist` of the source. -/
def improvingSwap (d : P → P → ℚ) (start : P) (route : List P) (i k : ℕ) : Bool :=
  decide (swappedDist d start route i k + 1 / 100 < currentDist d start route i k)

/-- Scan k = k0, k0+1, ... (n candidates) for the first improving pair,
mirroring the inner `for (let k = i + 1; k < route.length; k += 1)` loop. -/
def findKFrom (d : P → P → ℚ) (start : P) (route : List P) (i : ℕ) :
    ℕ → ℕ → Option ℕ
  | _, 0 => none
  | k, n + 1 =>
    if improvingSwap d start route i k then some k
    else findKFrom d start route i (k + 1) n

/-- Scan i = i0, i0+1, ... (n candidates), mirroring the outer
`for (let i = 0; i < route.length - 1; i += 1)` loop with its break. -/
def findIFrom (d : P → P → ℚ) (start : P) (route : List P) :
    ℕ → ℕ → Option (ℕ × ℕ)
  | _, 0 => none
  | i, n + 1 =>
    match findKFrom d start route i (i + 1) (route.length - (i + 1)) with
    | some k => some (i, k)
    | none => findIFrom d start route (i + 1) n

/-- The first improving index pair (i, k) found by the source's double loop
scan order, if any. -/
def findImprovingSwap (d : P → P → ℚ) (start : P) (route : List P) :
    Option (ℕ × ℕ) :=
  findIFrom d start route 0 (route.length - 1)

/-- `route = [...route.slice(0, i), ...route.slice(i, k + 1).reverse(), ...route.slice(k + 1)]`. -/
def applySwap (route : List P) (i k : ℕ) : List P :=
  route.take i ++ ((route.drop i).take (k + 1 - i)).reverse ++ route.drop (k + 1)

/-- The `while (improved && iterations < maxIterations)` loop: each round
either finds no improving pair (improved stays false; the loop ends) or
applies the first improving reversal and breaks out of both scans. -/
def twoOptLoop (d : P → P → ℚ) (start : P) : ℕ → List P → List P
  | 0, route => route
  | fuel + 1, route =>
    match findImprovingSwap d start route with
    | none => route
    | some (i, k) => twoOptLoop d start fuel (applySwap route i k)

/-- optimizeRoute2Opt of src/pages/TripPlanPage.tsx, with maxIterations = 6. -/
def optimizeRoute2Opt (d : P → P → ℚ) (points : List P) (start : P) : List P :=
  if points.length < 3 then points else twoOptLoop d start 6 points

/-- Number of sub-sequence reversals the bounded 2-opt loop applies. -/
def twoOptSwapCount (d : P → P → ℚ) (start : P) : ℕ → List P → ℕ
  | 0, _ => 0
  | fuel + 1, route =>
    match findImprovingSwap d start route with
    | none => 0
    | some (i, k) => twoOptSwapCount d start fuel (applySwap route i k) + 1

/-- Number of reversals applied by optimizeRoute2Opt. -/
def optSwapCount (d : P → P → ℚ) (points : List P) (start : P) : ℕ :=
  if points.length < 3 then 0 else twoOptSwapCount d start 6 points

/-- The forEach scan of buildNearestNeighborRoute tracking the index of the
strictly smallest distance seen so far; `none` models the initial
Number.POSITIVE_INFINITY best distance. -/
def bestIdxGo (d : P → P → ℚ) (current : P) :
    List P → ℕ → ℕ → Option ℚ → ℕ
  | [], _, best, _ => best
  | c :: rest, idx, best, bd =>
    if (match bd with
        | none => true
        | some v => decide (d current c < v)) then
      bestIdxGo d current rest (idx + 1) idx (some (d current c))
    else
      bestIdxGo d current rest (idx + 1) best bd

/-- Index of the remaining candidate nearest to `current` (first such index
on ties), as computed by the source's forEach scan. -/
def bestIdx (d : P → P → ℚ) (current : P) (l : List P) : ℕ :=
  bestIdxGo d current l 0 0 none

/-- The `while (remaining.length > 0)` loop of buildNearestNeighborRoute:
splice out the nearest remaining stop and advance the cursor to it. -/
def nnGo (d : P → P → ℚ) : ℕ → List P → P → List P
  | 0, _, _ => []
  | fuel + 1, remaining, current =>
    if remaining.isEmpty then []
    else
      let i := bestIdx d current remaining
      let next := remaining.getD i current
      next :: nnGo d fuel (remaining.eraseIdx i) next

/-- buildNearestNeighborRoute of src/pages/TripPlanPage.tsx. -/
def buildNearestNeighborRoute (d : P → P → ℚ) (points : List P) (start : P) :
    List P :=
  nnGo d points.length points start

end TripRoute

namespace MeetPoint

/-- LocationPoint of src/types: id, name, optional address, lng, lat. -/
structure LocationPoint where
  id : String
  name : String
  address : Option String
  lng : ℚ
  lat : ℚ
deriving DecidableEq

/-- MidPoint of src/types extends LocationPoint with no new fields. -/
abbrev MidPoint := LocationPoint

/-- MidPointMode of src/types. -/
inductive MidPointMode
  | straight
  | driving
  | transit
deriving DecidableEq

/-- RouteResult of src/utils/amap.ts: duration (seconds), distance (meters),
path polyline. -/
structure RouteResult where
  duration : ℚ
  distance : ℚ
  path : List (ℚ × ℚ)
deriving DecidableEq

/-- BatchRouteResult of src/utils/amap.ts. -/
structure BatchRouteResult where
  times : List ℚ
  routes : List (Option RouteResult)
deriving DecidableEq

/-- WeightedMidPointResult of src/utils/mapCalc.ts; the optional
usedStraightFallback field is `none` when the source object omits it. -/
structure WeightedMidPointResult where
  midPoint : MidPoint
  travelTimes : List ℚ
  routes : List (Option RouteResult)
  usedStraightFallback : Option Bool
deriving DecidableEq

/-- One oracle query issued by the solver: target coordinates and mode. -/
abbrev OracleQuery : Type := ℚ × ℚ × MidPointMode

/-- The midpoint record constructed by the solver: fixed synthetic id and
display name, with the given coordinates. -/
def mkMid (lng lat : ℚ) : MidPoint :=
  { id := "midpoint", name := "中点", address := none, lng := lng, lat := lat }

/-- calculateMidPoint of src/utils/mapCalc.ts: the unweighted geometric
centroid, or null for fewer than 2 points. -/
def calculateMidPoint (points : List LocationPoint) : Option MidPoint :=
  if points.length < 2 then none
  else
    some { id := "midpoint", name := "中点", address := none,
           lng := (points.foldl (fun s p => s + p.lng) 0) / points.length,
           lat := (points.foldl (fun s p => s + p.lat) 0) / points.length }

/-- getBatchRouteTimes of src/utils/amap.ts.  The external AMap SDK is
abstracted by gdist (GeometryUtil.distance, used by the straight branch) and
routeOracle (per-point driving/transit route planning; `none` covers both a
failed plan and a thrown exception).  Math.round is Mathlib round, which
agrees with JS rounding (half toward positive infinity). -/
def getBatchRouteTimes (gdist : ℚ → ℚ → ℚ → ℚ → ℚ)
    (routeOracle : MidPointMode → LocationPoint → ℚ → ℚ → Option RouteResult)
    (points : List LocationPoint) (targetLng targetLat : ℚ)
    (mode : MidPointMode) : BatchRouteResult :=
  if mode = MidPointMode.straight then
    { times := points.map
        (fun p => ((round (gdist p.lng p.lat targetLng targetLat / 500) : ℤ) : ℚ)),
      routes := points.map (fun _ => none) }
  else
    let results := points.map (fun p =>
      match routeOracle mode p targetLng targetLat with
      | some route => (((round (route.duration / 60) : ℤ) : ℚ), some route)
      | none => ((999 : ℚ), (none : Option RouteResult)))
    { times := results.map Prod.fst, routes := results.map Prod.snd }

/-- `Math.max(...l)` over a nonempty list (junk 0 on empty, never used so). -/
def maxQ : List ℚ → ℚ
  | [] => 0
  | x :: xs => xs.foldl max x

/-- `Math.min(...l)` over a nonempty list (junk 0 on empty, never used so). -/
def minQ : List ℚ → ℚ
  | [] => 0
  | x :: xs => xs.foldl min x

/-- The final `getBatchRouteTimes` call after the iteration loop of
calculateWeightedMidPoint, paired with the query it issues. -/
def wmFinal (gdist : ℚ → ℚ → ℚ → ℚ → ℚ)
    (routeOracle : MidPointMode → LocationPoint → ℚ → ℚ → Option RouteResult)
    (points : List LocationPoint) (mode : MidPointMode) (currentMid : MidPoint) :
    WeightedMidPointResult × List OracleQuery :=
  let finalResult := getBatchRouteTimes gdist routeOracle points
    currentMid.lng currentMid.lat mode
  ({ midPoint := currentMid, travelTimes := finalResult.times,
     routes := finalResult.routes, usedStraightFallback := some false },
   [(currentMid.lng, currentMid.lat, mode)])

/-- The `for (let i = 0; i < maxIterations; i++)` refinement loop of
calculateWeightedMidPoint, returning the result together with the trace of
oracle queries issued (one per awaited getBatchRouteTimes call).  A `break`
falls through to the final query; total oracle failure returns the straight
fallback directly. -/
def wmIter (gdist : ℚ → ℚ → ℚ → ℚ → ℚ)
    (routeOracle : MidPointMode → LocationPoint → ℚ → ℚ → Option RouteResult)
    (points : List LocationPoint) (mode : MidPointMode) :
    ℕ → MidPoint → WeightedMidPointResult × List OracleQuery
  | 0, currentMid => wmFinal gdist routeOracle points mode currentMid
  | fuel + 1, currentMid =>
    let result := getBatchRouteTimes gdist routeOracle points
      currentMid.lng currentMid.lat mode
    let travelTimes := result.times
    let validTimes := travelTimes.filter (fun t => t < 999)
    if validTimes.isEmpty then
      let fallbackResult := getBatchRouteTimes gdist routeOracle points
        currentMid.lng currentMid.lat MidPointMode.straight
      ({ midPoint := currentMid, travelTimes := fallbackResult.times,
         routes := points.map (fun _ => none), usedStraightFallback := some true },
       [(currentMid.lng, currentMid.lat, mode),
        (currentMid.lng, currentMid.lat, MidPointMode.straight)])
    else
      let avgTime := (validTimes.foldl (fun s t => s + t) (0 : ℚ)) / (validTimes.length : ℚ)
      let maxDiff := maxQ validTimes - minQ validTimes
      if maxDiff < 5 then
        let fin := wmFinal gdist routeOracle points mode currentMid
        (fin.1, (currentMid.lng, currentMid.lat, mode) :: fin.2)
      else
        let adjustedTimes := travelTimes.map (fun t => if t ≥ (999 : ℚ) then avgTime else t)
        let weights := adjustedTimes.map (fun t => (t / avgTime) ^ 2)
        let totalWeight := weights.foldl (fun s w => s + w) (0 : ℚ)
        let weightedLng :=
          ((points.zip weights).foldl (fun s pw => s + pw.1.lng * pw.2) (0 : ℚ)) / totalWeight
        let weightedLat :=
          ((points.zip weights).foldl (fun s pw => s + pw.1.lat * pw.2) (0 : ℚ)) / totalWeight
        let newMid : MidPoint :=
          { id := "midpoint", name := "中点", address := none,
            lng := currentMid.lng * (1 / 2) + weightedLng * (1 / 2),
            lat := currentMid.lat * (1 / 2) + weightedLat * (1 / 2) }
        let rest := wmIter gdist routeOracle points mode fuel newMid
        (rest.1, (currentMid.lng, currentMid.lat, mode) :: rest.2)

/-- calculateWeightedMidPoint of src/utils/mapCalc.ts (the midpoint solver).
First component: the returned result (`none` models the null return).
Second component: the trace of oracle queries issued, in order.  The source
default for maxIterations is 3. -/
def calculateWeightedMidPoint (gdist : ℚ → ℚ → ℚ → ℚ → ℚ)
    (routeOracle : MidPointMode → LocationPoint → ℚ → ℚ → Option RouteResult)
    (points : List LocationPoint) (mode : MidPointMode) (maxIterations : ℕ) :
    Option WeightedMidPointResult × List OracleQuery :=
  if points.length < 2 then (none, [])
  else if mode = MidPointMode.straight then
    match calculateMidPoint points with
    | none => (none, [])
    | some midPoint =>
      let result := getBatchRouteTimes gdist routeOracle points
        midPoint.lng midPoint.lat mode
      (some { midPoint := midPoint, travelTimes := result.times,
              routes := result.routes, usedStraightFallback := none },
       [(midPoint.lng, midPoint.lat, mode)])
  else
    match calculateMidPoint points with
    | none => (none, [])
    | some currentMid =>
      let out := wmIter gdist routeOracle points mode maxIterations currentMid
      (some out.1, out.2)

end MeetPoint

namespace GeoDist

/-- JS Math.atan2 over the reals (signed zeros aside). -/
noncomputable def atan2 (y x : ℝ) : ℝ :=
  if 0 < x then Real.arctan (y / x)
  else if x < 0 ∧ 0 ≤ y then Real.arctan (y / x) + Real.pi
  else if x < 0 ∧ y < 0 then Real.arctan (y / x) - Real.pi
  else if x = 0 ∧ 0 < y then Real.pi / 2
  else if x = 0 ∧ y < 0 then -(Real.pi / 2)
  else 0

/-- calculateDistance of src/utils/mapCalc.ts: haversine great-circle
distance in meters between two (lng, lat) pairs in degrees, Earth radius
6371000 m. -/
noncomputable def calculateDistance (lng1 lat1 lng2 lat2 : ℝ) : ℝ :=
  let R : ℝ := 6371000
  let dLat := (lat2 - lat1) * Real.pi / 180
  let dLng := (lng2 - lng1) * Real.pi / 180
  let a := Real.sin (dLat / 2) * Real.sin (dLat / 2) +
    Real.cos (lat1 * Real.pi / 180) * Real.cos (lat2 * Real.pi / 180) *
      Real.sin (dLng / 2) * Real.sin (dLng / 2)
  let c := 2 * atan2 (Real.sqrt a) (Real.sqrt (1 - a))
  R * c

end GeoDist

namespace Ex

/-- Concrete symmetric distance on rational coordinates, for witnesses. -/
def dEx : ℚ → ℚ → ℚ := fun x y => if x ≤ y then y - x else x - y

/-- dEx is symmetric. -/
lemma dEx_symm (x y : ℚ) : dEx x y = dEx y x := by
  unfold dEx
  rcases le_or_lt x y with h | h
  · rcases eq_or_lt_of_le h with he | hlt
    · simp [he]
    · rw [if_pos h, if_neg (not_le.mpr hlt)]
  · rw [if_neg (not_le.mpr h), if_pos (le_of_lt h)]

/-- Asymmetric concrete distance table on the labels 0..3 under which
first-improvement 2-opt cycles forever, so six passes never converge. -/
def dC10 : ℚ → ℚ → ℚ := fun x y =>
  if x = 0 then (if y = 1 then 4 else if y = 2 then 1 else if y = 3 then 2 else 0)
  else if x = 1 then (if y = 0 then 2 else if y = 2 then 4 else if y = 3 then 8 else 0)
  else if x = 2 then (if y = 0 then 2 else if y = 1 then 4 else if y = 3 then 4 else 0)
  else if x = 3 then (if y = 0 then 7 else if y = 1 then 5 else if y = 2 then 7 else 0)
  else 0

/-- Concrete straight-line distance oracle (L1 metric) for witnesses. -/
def gdistEx : ℚ → ℚ → ℚ → ℚ → ℚ := fun lng1 lat1 lng2 lat2 =>
  |lng1 - lng2| + |lat1 - lat2|

/-- Route oracle whose every query fails. -/
def oracleFail : MeetPoint.MidPointMode → MeetPoint.LocationPoint → ℚ → ℚ →
    Option MeetPoint.RouteResult := fun _ _ _ _ => none

/-- Route oracle reporting the same duration (seconds) for every query. -/
def oracleConst (sec : ℚ) : MeetPoint.MidPointMode → MeetPoint.LocationPoint →
    ℚ → ℚ → Option MeetPoint.RouteResult := fun _ _ _ _ =>
  some { duration := sec, distance := 0, path := [] }

/-- Concrete participant point. -/
def pEx1 : MeetPoint.LocationPoint :=
  { id := "p1", name := "A", address := none, lng := 0, lat := 0 }

/-- Concrete participant point. -/
def pEx2 : MeetPoint.LocationPoint :=
  { id := "p2", name := "B", address := none, lng := 100, lat := 0 }

/-- Concrete two-point input list. -/
def ptsEx : List MeetPoint.LocationPoint := [pEx1, pEx2]

end Ex

namespace TripRoute

variable {P : Type}

lemma bestIdxGo_lt (d : P → P → ℚ) (cur : P) :
    ∀ (l : List P) (idx best : ℕ) (bd : Option ℚ) (N : ℕ),
      best < N → idx + l.length ≤ N → bestIdxGo d cur l idx best bd < N := by
  intro l
  induction l with
  | nil => intro idx best bd N hb _; simpa [bestIdxGo] using hb
  | cons c rest ih =>
      intro idx best bd N hb hlen
      simp only [bestIdxGo, List.length_cons] at *
      split
      · exact ih (idx + 1) idx (some (d cur c)) N (by omega) (by omega)
      · exact ih (idx + 1) best bd N hb (by omega)

lemma bestIdx_lt_length (d : P → P → ℚ) (cur : P) (l : List P) (h : l ≠ []) :
    bestIdx d cur l < l.length :=
  bestIdxGo_lt d cur l 0 0 none l.length (List.length_pos.mpr h) (by omega)

lemma cons_getD_eraseIdx_perm :
    ∀ (l : List P) (i : ℕ) (dflt : P), i < l.length →
      ((l.getD i dflt) :: l.eraseIdx i).Perm l := by
  intro l
  induction l with
  | nil => intro i dflt h; simp at h
  | cons x xs ih =>
      intro i dflt h
      cases i with
      | zero => simp [List.eraseIdx]
      | succ j =>
          have hj : j < xs.length := by simpa using Nat.lt_of_succ_lt_succ h
          simp only [List.getD_cons_succ, List.eraseIdx_cons_succ]
          exact (List.Perm.swap x (xs.getD j dflt) (xs.eraseIdx j)).trans
            ((ih j dflt hj).cons x)

lemma nnGo_perm (d : P → P → ℚ) :
    ∀ (fuel : ℕ) (remaining : List P) (cur : P),
      remaining.length = fuel → (nnGo d fuel remaining cur).Perm remaining := by
  intro fuel
  induction fuel with
  | zero =>
      intro remaining cur h
      simp [nnGo, List.length_eq_zero.mp h]
  | succ n ih =>
      intro remaining cur h
      have hne : remaining ≠ [] := by
        intro he; rw [he] at h; simp at h
      have hemp : remaining.isEmpty = false := by
        simpa [List.isEmpty_iff] using hne
      have hi : bestIdx d cur remaining < remaining.length :=
        bestIdx_lt_length d cur remaining hne
      have hlen : (remaining.eraseIdx (bestIdx d cur remaining)).length = n := by
        have := List.length_eraseIdx_add_one hi
        omega
      simp only [nnGo, hemp, Bool.false_eq_true, if_false]
      exact ((ih _ _ hlen).cons _).trans
        (cons_getD_eraseIdx_perm remaining (bestIdx d cur remaining) cur hi)

lemma findKFrom_some (d : P → P → ℚ) (start : P) (route : List P) (i : ℕ) :
    ∀ (n k0 k : ℕ), findKFrom d start route i k0 n = some k →
      k0 ≤ k ∧ k < k0 + n ∧ improvingSwap d start route i k = true := by
  intro n
  induction n with
  | zero => intro k0 k h; simp [findKFrom] at h
  | succ m ih =>
      intro k0 k h
      by_cases himp : improvingSwap d start route i k0 = true
      · simp only [findKFrom, himp, if_true, Option.some.injEq] at h
        subst h
        exact ⟨le_rfl, by omega, himp⟩
      · simp only [findKFrom, himp, if_false, Bool.false_eq_true] at h
        obtain ⟨h1, h2, h3⟩ := ih (k0 + 1) k h
        exact ⟨by omega, by omega, h3⟩

lemma findIFrom_some (d : P → P → ℚ) (start : P) (route : List P) :
    ∀ (n i0 i k : ℕ), findIFrom d start route i0 n = some (i, k) →
      findKFrom d start route i (i + 1) (route.length - (i + 1)) = some k := by
  intro n
  induction n with
  | zero => intro i0 i k h; simp [findIFrom] at h
  | succ m ih =>
      intro i0 i k h
      simp only [findIFrom] at h
      cases hk : findKFrom d start route i0 (i0 + 1) (route.length - (i0 + 1)) with
      | some k1 =>
          rw [hk] at h
          simp only [Option.some.injEq, Prod.mk.injEq] at h
          obtain ⟨h1, h2⟩ := h
          subst h1; subst h2
          exact hk
      | none =>
          rw [hk] at h
          exact ih (i0 + 1) i k h

lemma findImprovingSwap_some (d : P → P → ℚ) (start : P) (route : List P)
    (i k : ℕ) (h : findImprovingSwap d start route = some (i, k)) :
    i < k ∧ k < route.length ∧ improvingSwap d start route i k = true := by
  have hK := findIFrom_some d start route _ 0 i k h
  obtain ⟨h1, h2, h3⟩ := findKFrom_some d start route i _ _ _ hK
  refine ⟨by omega, by omega, h3⟩

lemma applySwap_decomp (route : List P) (i k : ℕ) (h : i ≤ k + 1) :
    route = route.take i ++ ((route.drop i).take (k + 1 - i) ++ route.drop (k + 1)) := by
  have h1 : (route.drop i).take (k + 1 - i) ++ (route.drop i).drop (k + 1 - i)
      = route.drop i := List.take_append_drop _ _
  have h2 : (route.drop i).drop (k + 1 - i) = route.drop (k + 1) := by
    rw [List.drop_drop]
    congr 1
    omega
  rw [← h2, h1, List.take_append_drop]

lemma applySwap_perm (route : List P) (i k : ℕ) (h : i ≤ k + 1) :
    (applySwap route i k).Perm route := by
  conv_rhs => rw [applySwap_decomp route i k h]
  unfold applySwap
  rw [List.append_assoc]
  exact ((((route.drop i).take (k + 1 - i)).reverse_perm).append_right
    (route.drop (k + 1))).append_left (route.take i)

lemma twoOptLoop_perm (d : P → P → ℚ) (start : P) :
    ∀ (fuel : ℕ) (route : List P), (twoOptLoop d start fuel route).Perm route := by
  intro fuel
  induction fuel with
  | zero => intro route; simp [twoOptLoop]
  | succ n ih =>
      intro route
      simp only [twoOptLoop]
      cases hf : findImprovingSwap d start route with
      | none => exact List.Perm.refl _
      | some p =>
          obtain ⟨i, k⟩ := p
          obtain ⟨hik, _, _⟩ := findImprovingSwap_some d start route i k hf
          exact (ih _).trans (applySwap_perm route i k (by omega))

/-- C1: for every distance function, every list of stops and every start
point, both buildNearestNeighborRoute and optimizeRoute2Opt return a
permutation (multiset-equal reordering) of the input stops: same elements,
same multiplicities, nothing added, dropped or duplicated. -/
theorem route_builders_perm (d : P → P → ℚ) (points : List P) (start : P) :
    (buildNearestNeighborRoute d points start).Perm points ∧
      (optimizeRoute2Opt d points start).Perm points := by
  constructor
  · exact nnGo_perm d points.length points start rfl
  · unfold optimizeRoute2Opt
    split
    · exact List.Perm.refl _
    · exact twoOptLoop_perm d start 6 points

lemma linkQ_none_left (d : P → P → ℚ) (o : Option P) : linkQ d none o = 0 := by
  cases o <;> rfl

lemma linkQ_none_right (d : P → P → ℚ) (o : Option P) : linkQ d o none = 0 := by
  cases o <;> rfl

lemma pathLen_cons (d : P → P → ℚ) (x : P) (l : List P) :
    pathLen d (x :: l) = linkQ d (some x) l.head? + pathLen d l := by
  cases l <;> simp [pathLen, linkQ]

lemma pathLen_append (d : P → P → ℚ) :
    ∀ xs ys : List P,
      pathLen d (xs ++ ys) = pathLen d xs + pathLen d ys +
        linkQ d xs.getLast? ys.head? := by
  intro xs
  induction xs with
  | nil => intro ys; simp [pathLen, linkQ_none_left]
  | cons x xs ih =>
      intro ys
      rw [List.cons_append, pathLen_cons, ih, pathLen_cons]
      cases xs with
      | nil => simp [pathLen, linkQ_none_left, linkQ_none_right]; ring
      | cons x' xs' => simp only [List.getLast?_cons_cons, List.cons_append,
          List.head?_cons]; ring

lemma pathLen_reverse (d : P → P → ℚ) (hsymm : ∀ x y, d x y = d y x) :
    ∀ l : List P, pathLen d l.reverse = pathLen d l := by
  intro l
  induction l with
  | nil => rfl
  | cons x l ih =>
      rw [List.reverse_cons, pathLen_append, ih, List.getLast?_reverse]
      have hx : linkQ d l.head? (some x) = linkQ d (some x) l.head? := by
        cases l with
        | nil => simp [linkQ]
        | cons y t => simp [linkQ, hsymm y x]
      simp only [pathLen_cons, List.head?_cons, List.head?_nil,
        linkQ_none_right, pathLen]
      rw [hx]
      ring

lemma head?_append_of_ne_nil (xs ys : List P) (h : xs ≠ []) :
    (xs ++ ys).head? = xs.head? := by
  cases xs with
  | nil => exact absurd rfl h
  | cons a t => rfl

lemma tourLen_applySwap (d : P → P → ℚ) (hsymm : ∀ x y, d x y = d y x)
    (start : P) (route : List P) (i k : ℕ) (hik : i < k)
    (hk : k < route.length) :
    tourLen d start (applySwap route i k) + currentDist d start route i k =
      tourLen d start route + swappedDist d start route i k := by
  set pre := route.take i with hpre
  set seg := (route.drop i).take (k + 1 - i) with hseg
  set post := route.drop (k + 1) with hpost
  have hlenseg : seg.length = k + 1 - i := by
    rw [hseg, List.length_take, List.length_drop]
    omega
  have hseg_ne : seg ≠ [] := by
    intro he
    rw [he] at hlenseg
    simp at hlenseg
    omega
  have hsegr_ne : seg.reverse ≠ [] := by
    simpa using hseg_ne
  have hhead : seg.head? = some (route.getD i start) := by
    rw [List.head?_eq_getElem? seg, hseg, List.getElem?_take, if_pos (by omega),
      List.getElem?_drop, Nat.add_zero, List.getElem?_eq_getElem (by omega),
      List.getD_eq_getElem route start (by omega)]
  have hlast : seg.getLast? = some (route.getD k start) := by
    rw [List.getLast?_eq_getElem? seg, hlenseg, hseg, List.getElem?_take,
      if_pos (by omega), List.getElem?_drop]
    have : i + (k + 1 - i - 1) = k := by omega
    rw [this, List.getElem?_eq_getElem (by omega),
      List.getD_eq_getElem route start (by omega)]
  have hposthead : post.head? = afterK start route k := by
    rw [List.head?_eq_getElem? post, hpost, List.getElem?_drop, Nat.add_zero,
      afterK]
    by_cases hk1 : k + 1 < route.length
    · rw [if_pos hk1, List.getElem?_eq_getElem hk1,
        List.getD_eq_getElem route start hk1]
    · rw [if_neg hk1, List.getElem?_eq_none (by omega)]
  have hSP : (start :: pre).getLast? = some (edgeA start route i) := by
    cases i with
    | zero => simp [hpre, edgeA]
    | succ j =>
        have hj : j < route.length := by omega
        have hlenpre : pre.length = j + 1 := by
          rw [hpre, List.length_take]; omega
        have hL : (start :: pre).getLast? = route[j]? := by
          rw [List.getLast?_eq_getElem?, List.length_cons, hlenpre]
          have h2 : j + 1 + 1 - 1 = j + 1 := by omega
          rw [h2, List.getElem?_cons_succ, hpre, List.getElem?_take,
            if_pos (by omega)]
        rw [hL, List.getElem?_eq_getElem hj, edgeA, if_neg (by omega)]
        have h3 : j + 1 - 1 = j := by omega
        rw [h3, List.getD_eq_getElem route start hj]
  have hroute : route = pre ++ (seg ++ post) := applySwap_decomp route i k (by omega)
  have happly : applySwap route i k = pre ++ (seg.reverse ++ post) := by
    rw [applySwap, List.append_assoc]
  have ecur : currentDist d start route i k =
      linkQ d (some (edgeA start route i)) (some (route.getD i start)) +
        linkQ d (some (route.getD k start)) (afterK start route k) := by
    rw [currentDist]
    cases h : afterK start route k <;> simp [linkQ]
  have eswp : swappedDist d start route i k =
      linkQ d (some (edgeA start route i)) (some (route.getD k start)) +
        linkQ d (some (route.getD i start)) (afterK start route k) := by
    rw [swappedDist]
    cases h : afterK start route k <;> simp [linkQ]
  have e1 : tourLen d start route =
      pathLen d (start :: pre) + (pathLen d seg + pathLen d post +
        linkQ d seg.getLast? post.head?) +
        linkQ d (start :: pre).getLast? seg.head? := by
    conv_lhs => rw [tourLen, hroute, ← List.cons_append]
    rw [pathLen_append, pathLen_append, head?_append_of_ne_nil seg post hseg_ne]
  have e2 : tourLen d start (applySwap route i k) =
      pathLen d (start :: pre) + (pathLen d seg + pathLen d post +
        linkQ d seg.head? post.head?) +
        linkQ d (start :: pre).getLast? seg.getLast? := by
    conv_lhs => rw [tourLen, happly, ← List.cons_append]
    rw [pathLen_append, pathLen_append,
      head?_append_of_ne_nil seg.reverse post hsegr_ne,
      pathLen_reverse d hsymm, List.head?_reverse, List.getLast?_reverse]
  rw [e1, e2, ecur, eswp, hSP, hhead, hlast, hposthead]
  ring

lemma tourLen_applySwap_lt (d : P → P → ℚ) (hsymm : ∀ x y, d x y = d y x)
    (start : P) (route : List P) (i k : ℕ) (hik : i < k)
    (hk : k < route.length) (himp : improvingSwap d start route i k = true) :
    tourLen d start (applySwap route i k) < tourLen d start route := by
  have h := tourLen_applySwap d hsymm start route i k hik hk
  have himp' : swappedDist d start route i k + 1 / 100 <
      currentDist d start route i k := of_decide_eq_true himp
  linarith

lemma twoOptLoop_tourLen_le (d : P → P → ℚ) (hsymm : ∀ x y, d x y = d y x)
    (start : P) :
    ∀ (fuel : ℕ) (route : List P),
      tourLen d start (twoOptLoop d start fuel route) ≤ tourLen d start route := by
  intro fuel
  induction fuel with
  | zero => intro route; simp [twoOptLoop]
  | succ n ih =>
      intro route
      simp only [twoOptLoop]
      cases hf : findImprovingSwap d start route with
      | none => exact le_rfl
      | some p =>
          obtain ⟨i, k⟩ := p
          obtain ⟨hik, hk, himp⟩ := findImprovingSwap_some d start route i k hf
          exact le_trans (ih _)
            (le_of_lt (tourLen_applySwap_lt d hsymm start route i k hik hk himp))

/-- C2: for every symmetric distance function (the source's haversine
calculateDistance is symmetric, see Part 3), every list of stops and every
start point, the total tour length (start to first stop plus consecutive-stop
distances) of the order returned by optimizeRoute2Opt is at most the total
tour length of the input order. -/
theorem optimizeRoute2Opt_tourLen_le (d : P → P → ℚ)
    (hsymm : ∀ x y, d x y = d y x) (points : List P) (start : P) :
    tourLen d start (optimizeRoute2Opt d points start) ≤
      tourLen d start points := by
  unfold optimizeRoute2Opt
  split
  · exact le_rfl
  · exact twoOptLoop_tourLen_le d hsymm start 6 points

/-- Closed instance of optimizeRoute2Opt_tourLen_le at a concrete symmetric
distance and stop list. -/
theorem optimizeRoute2Opt_tourLen_le_witness :
    tourLen Ex.dEx 0 (optimizeRoute2Opt Ex.dEx [3, 1, 2] 0) ≤
      tourLen Ex.dEx 0 [3, 1, 2] :=
  optimizeRoute2Opt_tourLen_le Ex.dEx Ex.dEx_symm [3, 1, 2] 0

lemma findKFrom_all_false (d : P → P → ℚ) (start : P) (route : List P) (i : ℕ) :
    ∀ (n k0 : ℕ),
      (∀ k, k0 ≤ k → k < k0 + n → improvingSwap d start route i k = false) →
      findKFrom d start route i k0 n = none := by
  intro n
  induction n with
  | zero => intro k0 _; rfl
  | succ m ih =>
      intro k0 h
      have h0 : improvingSwap d start route i k0 = false := h k0 le_rfl (by omega)
      simp only [findKFrom, h0, Bool.false_eq_true, if_false]
      exact ih (k0 + 1) (fun k hk1 hk2 => h k (by omega) (by omega))

lemma findIFrom_all_none (d : P → P → ℚ) (start : P) (route : List P)
    (h : ∀ i k, i < k → k < route.length →
      improvingSwap d start route i k = false) :
    ∀ (n i0 : ℕ), findIFrom d start route i0 n = none := by
  intro n
  induction n with
  | zero => intro i0; rfl
  | succ m ih =>
      intro i0
      have hK : findKFrom d start route i0 (i0 + 1) (route.length - (i0 + 1)) = none := by
        apply findKFrom_all_false
        intro k hk1 hk2
        exact h i0 k (by omega) (by omega)
      simp only [findIFrom, hK]
      exact ih (i0 + 1)

lemma findImprovingSwap_none (d : P → P → ℚ) (start : P) (route : List P)
    (h : ∀ i k, i < k → k < route.length →
      improvingSwap d start route i k = false) :
    findImprovingSwap d start route = none :=
  findIFrom_all_none d start route h (route.length - 1) 0

/-- C6: if a route admits no improving 2-opt swap — no pair (i, k), i < k,
whose edge exchange beats the 0.01 tolerance — then optimizeRoute2Opt returns
it unchanged; in particular re-running optimizeRoute2Opt on such a converged
output changes nothing. -/
theorem optimizeRoute2Opt_no_improving_fixed (d : P → P → ℚ) (start : P)
    (route : List P)
    (h : ∀ i, i < route.length → ∀ k, k < route.length → i < k →
      improvingSwap d start route i k = false) :
    optimizeRoute2Opt d route start = route ∧
      optimizeRoute2Opt d (optimizeRoute2Opt d route start) start =
        optimizeRoute2Opt d route start := by
  have hnone : findImprovingSwap d start route = none :=
    findImprovingSwap_none d start route
      (fun i k hik hk => h i (by omega) k hk hik)
  have h1 : optimizeRoute2Opt d route start = route := by
    unfold optimizeRoute2Opt
    split
    · rfl
    · simp [twoOptLoop, hnone]
  exact ⟨h1, by rw [h1, h1]⟩

/-- Closed instance of optimizeRoute2Opt_no_improving_fixed on a concrete
already-optimal route. -/
theorem optimizeRoute2Opt_no_improving_fixed_witness :
    optimizeRoute2Opt Ex.dEx [(0 : ℚ), 1, 2] 0 = [(0 : ℚ), 1, 2] ∧
      optimizeRoute2Opt Ex.dEx (optimizeRoute2Opt Ex.dEx [(0 : ℚ), 1, 2] 0) 0 =
        optimizeRoute2Opt Ex.dEx [(0 : ℚ), 1, 2] 0 :=
  optimizeRoute2Opt_no_improving_fixed Ex.dEx 0 [(0 : ℚ), 1, 2] (by
    intro i hi k hk hik
    simp only [List.length_cons, List.length_nil] at hi hk
    interval_cases i <;> interval_cases k <;>
      first
        | omega
        | norm_num [improvingSwap, currentDist, swappedDist, edgeA, afterK,
            Ex.dEx, List.getD])

lemma twoOptSwapCount_le (d : P → P → ℚ) (start : P) :
    ∀ (fuel : ℕ) (route : List P), twoOptSwapCount d start fuel route ≤ fuel := by
  intro fuel
  induction fuel with
  | zero => intro route; simp [twoOptSwapCount]
  | succ n ih =>
      intro route
      simp only [twoOptSwapCount]
      cases hf : findImprovingSwap d start route with
      | none => simp
      | some p =>
          obtain ⟨i, k⟩ := p
          dsimp only
          have := ih (applySwap route i k)
          omega

/-- C10: each improving reversal ends an outer pass and consumes one of the
six bounded passes, so optimizeRoute2Opt applies at most 6 reversals on any
input; and a concrete input needing more than 6 improvements is returned with
an improving swap still available (only partially optimized). -/
theorem optimizeRoute2Opt_swap_budget :
    (∀ (Q : Type) (d : Q → Q → ℚ) (points : List Q) (start : Q),
      optSwapCount d points start ≤ 6) ∧
      (findImprovingSwap Ex.dC10 (0 : ℚ)
        (optimizeRoute2Opt Ex.dC10 [1, 2, 3] 0)).isSome = true := by
  constructor
  · intro Q d points start
    unfold optSwapCount
    split
    · omega
    · exact twoOptSwapCount_le d start 6 points
  · norm_num [optimizeRoute2Opt, twoOptLoop, findImprovingSwap, findIFrom,
      findKFrom, improvingSwap, currentDist, swappedDist, edgeA, afterK,
      applySwap, Ex.dC10, List.getD]

end TripRoute

namespace MeetPoint

lemma getBatch_times_length (g : ℚ → ℚ → ℚ → ℚ → ℚ)
    (ro : MidPointMode → LocationPoint → ℚ → ℚ → Option RouteResult)
    (points : List LocationPoint) (lng lat : ℚ) (mode : MidPointMode) :
    (getBatchRouteTimes g ro points lng lat mode).times.length = points.length := by
  unfold getBatchRouteTimes
  split <;> simp

lemma getBatch_routes_length (g : ℚ → ℚ → ℚ → ℚ → ℚ)
    (ro : MidPointMode → LocationPoint → ℚ → ℚ → Option RouteResult)
    (points : List LocationPoint) (lng lat : ℚ) (mode : MidPointMode) :
    (getBatchRouteTimes g ro points lng lat mode).routes.length = points.length := by
  unfold getBatchRouteTimes
  split <;> simp

lemma foldl_add_lng (l : List LocationPoint) (init : ℚ) :
    l.foldl (fun s p => s + p.lng) init = init + (l.map (fun p => p.lng)).sum := by
  induction l generalizing init with
  | nil => simp
  | cons p t ih => simp only [List.foldl_cons, List.map_cons, List.sum_cons, ih]; ring

lemma foldl_add_lat (l : List LocationPoint) (init : ℚ) :
    l.foldl (fun s p => s + p.lat) init = init + (l.map (fun p => p.lat)).sum := by
  induction l generalizing init with
  | nil => simp
  | cons p t ih => simp only [List.foldl_cons, List.map_cons, List.sum_cons, ih]; ring

/-- C8: with fewer than 2 points the midpoint solver returns the null
(InsufficientPoints) outcome in every mode, with no oracle query issued. -/
theorem calculateWeightedMidPoint_insufficient (g : ℚ → ℚ → ℚ → ℚ → ℚ)
    (ro : MidPointMode → LocationPoint → ℚ → ℚ → Option RouteResult)
    (points : List LocationPoint) (mode : MidPointMode) (n : ℕ)
    (h : points.length < 2) :
    calculateWeightedMidPoint g ro points mode n = (none, []) := by
  unfold calculateWeightedMidPoint
  rw [if_pos h]

/-- Closed instance of calculateWeightedMidPoint_insufficient on a singleton
input. -/
theorem calculateWeightedMidPoint_insufficient_witness :
    calculateWeightedMidPoint Ex.gdistEx Ex.oracleFail [Ex.pEx1]
      MidPointMode.driving 3 = (none, []) :=
  calculateWeightedMidPoint_insufficient Ex.gdistEx Ex.oracleFail [Ex.pEx1]
    MidPointMode.driving 3 (by simp)

/-- C4: in straight mode with at least two points the solver returns the
unweighted geometric centroid (arithmetic mean of longitudes and of
latitudes), travel times round (distance to the centroid) / 500, no route
polylines, and issues exactly one oracle query (no iteration). -/
theorem calculateWeightedMidPoint_straight (g : ℚ → ℚ → ℚ → ℚ → ℚ)
    (ro : MidPointMode → LocationPoint → ℚ → ℚ → Option RouteResult)
    (points : List LocationPoint) (n : ℕ) (h2 : 2 ≤ points.length) :
    calculateWeightedMidPoint g ro points MidPointMode.straight n =
      (some ⟨mkMid ((points.map (fun p => p.lng)).sum / points.length)
          ((points.map (fun p => p.lat)).sum / points.length),
        points.map (fun p =>
          ((round (g p.lng p.lat
            ((points.map (fun p => p.lng)).sum / points.length)
            ((points.map (fun p => p.lat)).sum / points.length) / 500) : ℤ) : ℚ)),
        points.map (fun _ => none),
        none⟩,
       [((points.map (fun p => p.lng)).sum / points.length,
         (points.map (fun p => p.lat)).sum / points.length,
         MidPointMode.straight)]) := by
  have hmid : calculateMidPoint points = some
      (mkMid ((points.map (fun p => p.lng)).sum / points.length)
        ((points.map (fun p => p.lat)).sum / points.length)) := by
    unfold calculateMidPoint mkMid
    rw [if_neg (by omega)]
    simp [foldl_add_lng, foldl_add_lat]
  unfold calculateWeightedMidPoint
  rw [if_neg (by omega), if_pos rfl, hmid]
  simp [getBatchRouteTimes, mkMid]

end MeetPoint

namespace MeetPoint

/-- C3: under driving or transit mode, if every travel time the oracle
reports for the initial candidate is the failure sentinel (at least 999), the
solver returns a successful result flagged usedStraightFallback = true whose
travel times are the straight-mode estimates at the current candidate point
and whose routes are all null; the total failure is not propagated as an
error (the result is not none). -/
theorem calculateWeightedMidPoint_total_failure (g : ℚ → ℚ → ℚ → ℚ → ℚ)
    (ro : MidPointMode → LocationPoint → ℚ → ℚ → Option RouteResult)
    (points : List LocationPoint) (mode : MidPointMode) (n : ℕ)
    (mid0 : MidPoint)
    (hmode : mode = MidPointMode.driving ∨ mode = MidPointMode.transit)
    (hmid : calculateMidPoint points = some mid0)
    (hfail : ∀ t ∈ (getBatchRouteTimes g ro points mid0.lng mid0.lat mode).times,
      (999 : ℚ) ≤ t) :
    calculateWeightedMidPoint g ro points mode (n + 1) =
      (some ⟨mid0,
        points.map (fun p =>
          ((round (g p.lng p.lat mid0.lng mid0.lat / 500) : ℤ) : ℚ)),
        points.map (fun _ => none),
        some true⟩,
       [(mid0.lng, mid0.lat, mode), (mid0.lng, mid0.lat, MidPointMode.straight)]) := by
  have h2 : ¬ points.length < 2 := by
    intro hlt
    rw [calculateMidPoint, if_pos hlt] at hmid
    exact Option.noConfusion hmid
  have hst : ¬ mode = MidPointMode.straight := by
    rcases hmode with h | h <;> subst h <;> simp
  have hfilter : (getBatchRouteTimes g ro points mid0.lng mid0.lat mode).times.filter
      (fun t => t < 999) = [] := by
    rw [List.filter_eq_nil_iff]
    intro a ha
    simp only [decide_eq_true_eq, not_lt]
    exact hfail a ha
  have hiter : wmIter g ro points mode (n + 1) mid0 =
      (⟨mid0,
        points.map (fun p =>
          ((round (g p.lng p.lat mid0.lng mid0.lat / 500) : ℤ) : ℚ)),
        points.map (fun _ => none),
        some true⟩,
       [(mid0.lng, mid0.lat, mode), (mid0.lng, mid0.lat, MidPointMode.straight)]) := by
    simp only [wmIter, hfilter, List.isEmpty_nil, if_true]
    simp [getBatchRouteTimes]
  unfold calculateWeightedMidPoint
  rw [if_neg h2, if_neg hst, hmid]
  dsimp only
  rw [hiter]

end MeetPoint

namespace MeetPoint

lemma filter_lt999_replicate (m : ℕ) (c : ℚ) (hc : c < 999) :
    (List.replicate m c).filter (fun t => t < 999) = List.replicate m c := by
  induction m with
  | zero => simp
  | succ k ih => simp [List.replicate_succ, List.filter_cons, hc, ih]

lemma foldl_max_replicate (c : ℚ) : ∀ m, (List.replicate m c).foldl max c = c := by
  intro m
  induction m with
  | zero => rfl
  | succ k ih => simp [List.replicate_succ, List.foldl_cons, max_self, ih]

lemma foldl_min_replicate (c : ℚ) : ∀ m, (List.replicate m c).foldl min c = c := by
  intro m
  induction m with
  | zero => rfl
  | succ k ih => simp [List.replicate_succ, List.foldl_cons, min_self, ih]

lemma maxQ_replicate (m : ℕ) (c : ℚ) (h : m ≠ 0) :
    maxQ (List.replicate m c) = c := by
  cases m with
  | zero => exact absurd rfl h
  | succ k => simp [List.replicate_succ, maxQ, foldl_max_replicate]

lemma minQ_replicate (m : ℕ) (c : ℚ) (h : m ≠ 0) :
    minQ (List.replicate m c) = c := by
  cases m with
  | zero => exact absurd rfl h
  | succ k => simp [List.replicate_succ, minQ, foldl_min_replicate]

/-- C5: under driving mode, when the oracle reports the same valid
(non-sentinel) time for every point at the initial centroid, the refinement
loop stops after its first iteration (maxDiff = 0 < 5) and the returned
meeting point is the initial geometric centroid; the trace records exactly
the first-iteration query and the final query, both at the centroid. -/
theorem calculateWeightedMidPoint_uniform (g : ℚ → ℚ → ℚ → ℚ → ℚ)
    (ro : MidPointMode → LocationPoint → ℚ → ℚ → Option RouteResult)
    (points : List LocationPoint) (n : ℕ) (mid0 : MidPoint) (c : ℚ)
    (hmid : calculateMidPoint points = some mid0)
    (htimes : (getBatchRouteTimes g ro points mid0.lng mid0.lat
      MidPointMode.driving).times = List.replicate points.length c)
    (hc : c < 999) :
    calculateWeightedMidPoint g ro points MidPointMode.driving (n + 1) =
      (some ⟨mid0,
        (getBatchRouteTimes g ro points mid0.lng mid0.lat
          MidPointMode.driving).times,
        (getBatchRouteTimes g ro points mid0.lng mid0.lat
          MidPointMode.driving).routes,
        some false⟩,
       [(mid0.lng, mid0.lat, MidPointMode.driving),
        (mid0.lng, mid0.lat, MidPointMode.driving)]) := by
  have h2 : ¬ points.length < 2 := by
    intro hlt
    rw [calculateMidPoint, if_pos hlt] at hmid
    exact Option.noConfusion hmid
  have hlen : points.length ≠ 0 := by omega
  have hfilter : (getBatchRouteTimes g ro points mid0.lng mid0.lat
      MidPointMode.driving).times.filter (fun t => t < 999) =
      List.replicate points.length c := by
    rw [htimes]
    exact filter_lt999_replicate _ _ hc
  have hemp : (List.replicate points.length c).isEmpty = false := by
    cases hm : points.length with
    | zero => exact absurd hm hlen
    | succ k => simp [List.replicate_succ]
  have hiter : wmIter g ro points MidPointMode.driving (n + 1) mid0 =
      (⟨mid0,
        (getBatchRouteTimes g ro points mid0.lng mid0.lat
          MidPointMode.driving).times,
        (getBatchRouteTimes g ro points mid0.lng mid0.lat
          MidPointMode.driving).routes,
        some false⟩,
       [(mid0.lng, mid0.lat, MidPointMode.driving),
        (mid0.lng, mid0.lat, MidPointMode.driving)]) := by
    simp only [wmIter, hfilter, hemp, Bool.false_eq_true, if_false,
      maxQ_replicate points.length c hlen, minQ_replicate points.length c hlen,
      sub_self]
    rw [if_pos (by norm_num : (0 : ℚ) < 5)]
    simp [wmFinal]
  unfold calculateWeightedMidPoint
  rw [if_neg h2, if_neg (by simp), hmid]
  dsimp only
  rw [hiter]

end MeetPoint

namespace MeetPoint

lemma driving_ne_straight : MidPointMode.driving ≠ MidPointMode.straight := by
  simp

/-- Closed instance of calculateWeightedMidPoint_total_failure: with an
always-failing route oracle the solver falls back to straight estimates. -/
theorem calculateWeightedMidPoint_total_failure_witness :
    calculateWeightedMidPoint Ex.gdistEx Ex.oracleFail Ex.ptsEx
      MidPointMode.driving 3 =
      (some ⟨mkMid 50 0, [0, 0], [none, none], some true⟩,
       [(50, 0, MidPointMode.driving), (50, 0, MidPointMode.straight)]) := by
  refine Eq.trans (calculateWeightedMidPoint_total_failure Ex.gdistEx
    Ex.oracleFail Ex.ptsEx MidPointMode.driving 2 (mkMid 50 0) (Or.inl rfl)
    ?_ ?_) ?_
  · norm_num [calculateMidPoint, Ex.ptsEx, Ex.pEx1, Ex.pEx2, mkMid]
  · norm_num [getBatchRouteTimes, Ex.oracleFail, Ex.ptsEx, mkMid,
      driving_ne_straight]
  · norm_num [Ex.ptsEx, Ex.pEx1, Ex.pEx2, Ex.gdistEx, mkMid, round_eq]

/-- Closed instance of calculateWeightedMidPoint_straight on a concrete
two-point input. -/
theorem calculateWeightedMidPoint_straight_witness :
    calculateWeightedMidPoint Ex.gdistEx Ex.oracleFail Ex.ptsEx
      MidPointMode.straight 3 =
      (some ⟨mkMid 50 0, [0, 0], [none, none], none⟩,
       [(50, 0, MidPointMode.straight)]) := by
  refine Eq.trans (calculateWeightedMidPoint_straight Ex.gdistEx Ex.oracleFail
    Ex.ptsEx 3 (by norm_num [Ex.ptsEx])) ?_
  norm_num [Ex.ptsEx, Ex.pEx1, Ex.pEx2, Ex.gdistEx, mkMid, round_eq]

/-- Closed instance of calculateWeightedMidPoint_uniform: a constant-duration
oracle stops the refinement in one iteration at the centroid. -/
theorem calculateWeightedMidPoint_uniform_witness :
    calculateWeightedMidPoint Ex.gdistEx (Ex.oracleConst 600) Ex.ptsEx
      MidPointMode.driving 3 =
      (some ⟨mkMid 50 0, [10, 10],
        [some ⟨600, 0, []⟩, some ⟨600, 0, []⟩], some false⟩,
       [(50, 0, MidPointMode.driving), (50, 0, MidPointMode.driving)]) := by
  refine Eq.trans (calculateWeightedMidPoint_uniform Ex.gdistEx
    (Ex.oracleConst 600) Ex.ptsEx 2 (mkMid 50 0) 10 ?_ ?_ (by norm_num)) ?_
  · norm_num [calculateMidPoint, Ex.ptsEx, Ex.pEx1, Ex.pEx2, mkMid]
  · norm_num [getBatchRouteTimes, Ex.oracleConst, Ex.ptsEx, mkMid,
      List.replicate, round_eq, driving_ne_straight]
  · norm_num [getBatchRouteTimes, Ex.oracleConst, Ex.ptsEx, Ex.pEx1, Ex.pEx2,
      mkMid, round_eq, driving_ne_straight]

end MeetPoint

namespace MeetPoint

lemma wmIter_shape (g : ℚ → ℚ → ℚ → ℚ → ℚ)
    (ro : MidPointMode → LocationPoint → ℚ → ℚ → Option RouteResult)
    (points : List LocationPoint) (mode : MidPointMode) :
    ∀ (fuel : ℕ) (mid : MidPoint),
      ((wmIter g ro points mode fuel mid).1.travelTimes.length = points.length) ∧
      ((wmIter g ro points mode fuel mid).1.routes.length = points.length) ∧
      ((wmIter g ro points mode fuel mid).1.usedStraightFallback = some true →
        ∀ t ∈ (getBatchRouteTimes g ro points
            (wmIter g ro points mode fuel mid).1.midPoint.lng
            (wmIter g ro points mode fuel mid).1.midPoint.lat mode).times,
          (999 : ℚ) ≤ t) := by
  intro fuel
  induction fuel with
  | zero =>
      intro mid
      refine ⟨?_, ?_, ?_⟩
      · simp [wmIter, wmFinal, getBatch_times_length]
      · simp [wmIter, wmFinal, getBatch_routes_length]
      · intro hflag
        simp [wmIter, wmFinal] at hflag
  | succ m ih =>
      intro mid
      simp only [wmIter]
      split
      · rename_i hemp
        refine ⟨by simp [getBatch_times_length], by simp, ?_⟩
        intro _ t ht
        have hnil := List.isEmpty_iff.mp hemp
        have hmem := List.filter_eq_nil_iff.mp hnil t (by simpa using ht)
        simpa [not_lt] using hmem
      · split
        · refine ⟨by simp [wmFinal, getBatch_times_length],
            by simp [wmFinal, getBatch_routes_length], ?_⟩
          intro hflag
          simp [wmFinal] at hflag
        · exact ih _

/-- C7: every successful solver result carries a travelTimes list and a
routes list of the same length as the input points (index i belonging to
points[i] by construction), and its usedStraightFallback flag is some true
only in the total-failure fallback case: then the mode is routed and every
mode-query time at the returned midpoint is the sentinel.  Per-point failure
(sentinel time, null route) is representable inside these lists without the
call failing. -/
theorem calculateWeightedMidPoint_result_shape (g : ℚ → ℚ → ℚ → ℚ → ℚ)
    (ro : MidPointMode → LocationPoint → ℚ → ℚ → Option RouteResult)
    (points : List LocationPoint) (mode : MidPointMode) (n : ℕ)
    (r : WeightedMidPointResult)
    (h : (calculateWeightedMidPoint g ro points mode n).1 = some r) :
    r.travelTimes.length = points.length ∧
      r.routes.length = points.length ∧
      (r.usedStraightFallback = some true →
        mode ≠ MidPointMode.straight ∧
        ∀ t ∈ (getBatchRouteTimes g ro points r.midPoint.lng r.midPoint.lat
          mode).times, (999 : ℚ) ≤ t) := by
  by_cases h2 : points.length < 2
  · rw [calculateWeightedMidPoint, if_pos h2] at h
    simp at h
  by_cases hst : mode = MidPointMode.straight
  · rw [calculateWeightedMidPoint, if_neg h2, if_pos hst] at h
    cases hmid : calculateMidPoint points with
    | none => rw [hmid] at h; simp at h
    | some mid =>
        rw [hmid] at h
        dsimp only at h
        have hr := Option.some.inj h
        rw [← hr]
        refine ⟨getBatch_times_length g ro points mid.lng mid.lat mode,
          getBatch_routes_length g ro points mid.lng mid.lat mode, ?_⟩
        intro hflag
        simp at hflag
  · rw [calculateWeightedMidPoint, if_neg h2, if_neg hst] at h
    cases hmid : calculateMidPoint points with
    | none => rw [hmid] at h; simp at h
    | some mid =>
        rw [hmid] at h
        dsimp only at h
        have hr := Option.some.inj h
        obtain ⟨ht, hro, hfl⟩ := wmIter_shape g ro points mode n mid
        rw [← hr]
        exact ⟨ht, hro, fun hflag => ⟨hst, hfl hflag⟩⟩

/-- Closed instance of calculateWeightedMidPoint_result_shape on a concrete
straight-mode run. -/
theorem calculateWeightedMidPoint_result_shape_witness :
    (⟨mkMid 50 0, [0, 0], [none, none],
        none⟩ : WeightedMidPointResult).travelTimes.length = Ex.ptsEx.length ∧
      (⟨mkMid 50 0, [0, 0], [none, none],
        none⟩ : WeightedMidPointResult).routes.length = Ex.ptsEx.length ∧
      ((⟨mkMid 50 0, [0, 0], [none, none],
          none⟩ : WeightedMidPointResult).usedStraightFallback = some true →
        MidPointMode.straight ≠ MidPointMode.straight ∧
        ∀ t ∈ (getBatchRouteTimes Ex.gdistEx Ex.oracleFail Ex.ptsEx
          (mkMid 50 0).lng (mkMid 50 0).lat MidPointMode.straight).times,
          (999 : ℚ) ≤ t) :=
  calculateWeightedMidPoint_result_shape Ex.gdistEx Ex.oracleFail Ex.ptsEx
    MidPointMode.straight 3 ⟨mkMid 50 0, [0, 0], [none, none], none⟩
    (by norm_num [calculateWeightedMidPoint, calculateMidPoint,
      getBatchRouteTimes, Ex.ptsEx, Ex.pEx1, Ex.pEx2, Ex.gdistEx, mkMid,
      round_eq])

end MeetPoint

namespace GeoDist

lemma haverA_symm (lng1 lat1 lng2 lat2 : ℝ) :
    Real.sin ((lat2 - lat1) * Real.pi / 180 / 2) *
        Real.sin ((lat2 - lat1) * Real.pi / 180 / 2) +
      Real.cos (lat1 * Real.pi / 180) * Real.cos (lat2 * Real.pi / 180) *
        Real.sin ((lng2 - lng1) * Real.pi / 180 / 2) *
        Real.sin ((lng2 - lng1) * Real.pi / 180 / 2) =
      Real.sin ((lat1 - lat2) * Real.pi / 180 / 2) *
          Real.sin ((lat1 - lat2) * Real.pi / 180 / 2) +
        Real.cos (lat2 * Real.pi / 180) * Real.cos (lat1 * Real.pi / 180) *
          Real.sin ((lng1 - lng2) * Real.pi / 180 / 2) *
          Real.sin ((lng1 - lng2) * Real.pi / 180 / 2) := by
  rw [show (lat2 - lat1) * Real.pi / 180 / 2 =
      -((lat1 - lat2) * Real.pi / 180 / 2) by ring,
    show (lng2 - lng1) * Real.pi / 180 / 2 =
      -((lng1 - lng2) * Real.pi / 180 / 2) by ring,
    Real.sin_neg, Real.sin_neg]
  ring

/-- C9: the haversine calculateDistance is symmetric in its two points,
returns 0 on identical coordinates, and for two points one degree of
longitude apart on the equator returns 6371000 * pi / 180, within 1 percent
of 111195 meters. -/
theorem calculateDistance_props :
    (∀ lng1 lat1 lng2 lat2 : ℝ,
      calculateDistance lng1 lat1 lng2 lat2 =
        calculateDistance lng2 lat2 lng1 lat1) ∧
    (∀ lng lat : ℝ, calculateDistance lng lat lng lat = 0) ∧
    |calculateDistance 0 0 1 0 - 111195| ≤ 111195 / 100 := by
  refine ⟨?_, ?_, ?_⟩
  · intro lng1 lat1 lng2 lat2
    simp only [calculateDistance]
    rw [haverA_symm]
  · intro lng lat
    simp only [calculateDistance]
    norm_num [atan2, Real.arctan_zero]
  · have hpos := Real.pi_pos
    have heq : calculateDistance 0 0 1 0 = 6371000 * (2 * (Real.pi / 360)) := by
      simp only [calculateDistance]
      norm_num
      set u : ℝ := Real.pi / 180 / 2 with hu
      have hub : u < Real.pi / 2 := by rw [hu]; nlinarith
      have hlb : 0 < u := by rw [hu]; positivity
      have hsin : 0 ≤ Real.sin u :=
        Real.sin_nonneg_of_nonneg_of_le_pi (by linarith) (by nlinarith)
      have h1 : Real.sqrt (Real.sin u * Real.sin u) = Real.sin u :=
        Real.sqrt_mul_self hsin
      have hcos : 0 < Real.cos u := Real.cos_pos_of_mem_Ioo ⟨by linarith, hub⟩
      have h2 : 1 - Real.sin u * Real.sin u = Real.cos u * Real.cos u := by
        have hid := Real.sin_sq_add_cos_sq u
        nlinarith [hid]
      have h3 : Real.sqrt (Real.cos u * Real.cos u) = Real.cos u :=
        Real.sqrt_mul_self (le_of_lt hcos)
      rw [h1, h2, h3, atan2, if_pos hcos, ← Real.tan_eq_sin_div_cos,
        Real.arctan_tan (by linarith) hub]
      rw [hu]; ring
    rw [heq, abs_le]
    constructor <;> nlinarith [Real.pi_gt_d6, Real.pi_lt_d2]

end GeoDist
